import Mathlib

/-!
Verification development for the vigilant_ai analysis-agent repository.

This file gives a shallow embedding, in Lean 4, of the verification
pipeline of the repository: the data model (`core/models.py`), the
timeline keyword-matching algorithm (`VideoTimeline.find_events_matching`),
the evidence-gathering query (`ComprehensiveVisionAgent.verify_step_against_timeline`),
the LLM-triage predicate (`VerificationAgent.needs_llm_verification`),
the deterministic verdict mapping and report generation
(`OrchestratorAgent._create_result_from_evidence`, `_generate_report`,
`_smart_verify_steps`), the batch-response parsing
(`VerificationAgent._parse_batch_verification_response`), and the
multi-strategy JSON recovery (`utils/json_utils.try_parse_json`).

Modelling conventions:
- Python floats are modelled as rationals (`ℚ`); every constant used by
  the code (0.5, 0.85, 0.9, ...) is exactly representable.
- Python strings are Lean `String`s; `needle in hay` is modelled by an
  executable substring scan; `str.lower()` by mapping `Char.toLower`
  (faithful on ASCII, which is all the code's fixed markers use).
- Exception control flow is modelled with `Option`/`Except`.
- Calls to Python's standard-library `json.loads` (an external library,
  not repository code) are modelled by an abstract total parameter
  `loads : String → Option JValue` / by already-parsed `JValue` inputs;
  `none` stands for a raised `JSONDecodeError`.
-/

/-! ## String utilities (models of Python string primitives) -/

/-- Model of Python `str.lower()` (ASCII-faithful).  Implemented on the
character list so that it evaluates by kernel reduction. -/
def lowerStr (s : String) : String := ⟨s.data.map Char.toLower⟩

/-- Does `hay` begin with `needle`?  (Helper for the substring scan.) -/
def listStarts : List Char → List Char → Bool
  | [], _ => true
  | _ :: _, [] => false
  | a :: as, b :: bs => (a == b) && listStarts as bs

/-- Does `needle` occur as a contiguous substring of `hay`?
Model of Python `needle in hay`. -/
def listHasSub (needle : List Char) : List Char → Bool
  | [] => needle.isEmpty
  | c :: rest => listStarts needle (c :: rest) || listHasSub needle rest

/-- Model of Python `needle in hay` on strings. -/
def strIn (needle hay : String) : Bool := listHasSub needle.data hay.data

/-- Model of Python `' '.join(l)`. -/
def joinSpace (l : List String) : String := String.intercalate " " l

/-! ## Data model (`core/models.py`) -/

/-- Model of `StepStatus` (models.py lines 9-13). -/
inductive StepStatus where
  | observed
  | deviation
  | uncertain
deriving DecidableEq, Repr

/-- The wire value of a `StepStatus` (the Python enum's string value). -/
def StepStatus.value : StepStatus → String
  | .observed => "observed"
  | .deviation => "deviation"
  | .uncertain => "uncertain"

/-- Model of `TestStep` (models.py lines 24-29). -/
structure TestStep where
  step_number : Nat
  description : String
  action : String
  expected_outcome : Option String := none
deriving DecidableEq, Repr

/-- Model of `TimelineEvent` (models.py lines 159-168; `screenshot_path` omitted,
never read by the verification pipeline). -/
structure TimelineEvent where
  timestamp : ℚ
  frame_number : Nat
  event_type : String
  description : String
  ui_elements : List String := []
  text_visible : List String := []
  confidence : ℚ := 1
deriving DecidableEq, Repr

/-- Model of `VideoTimeline` (models.py lines 171-177). -/
structure VideoTimeline where
  total_duration : ℚ
  total_frames_analyzed : Nat
  events : List TimelineEvent := []
  narrative : String
  key_observations : List String := []
deriving DecidableEq, Repr

/-- Model of `StepEvidence` (models.py lines 259-267). -/
structure StepEvidence where
  found : Bool
  confidence : ℚ
  timestamp : Option ℚ := none
  frame_number : Option Nat := none
  matching_events : List TimelineEvent := []
  description : String
  reasoning : String
deriving DecidableEq, Repr

/-- Model of `AgentDecision` (models.py lines 49-57; the wall-clock timestamp and
free-form metadata dictionary are omitted — no verified property reads
them). -/
structure AgentDecision where
  agent_name : String
  decision : String
  reasoning : String
  confidence : ℚ
deriving DecidableEq, Repr

/-- Model of `VerificationResult` (models.py lines 60-70). -/
structure VerificationResult where
  step : TestStep
  status : StepStatus
  confidence : ℚ
  video_timestamp : Option ℚ := none
  evidence : String
  ocr_detected_text : List String := []
  vision_analysis : Option String := none
  agent_decisions : List AgentDecision := []
  notes : Option String := none
deriving DecidableEq, Repr

/-- Model of `DeviationReport` (models.py lines 83-107; execution-date and metric
fields omitted — no verified property reads them). -/
structure DeviationReport where
  test_name : String
  total_steps : Nat
  observed_steps : Nat
  deviated_steps : Nat
  uncertain_steps : Nat
  pass_rate : ℚ
  verification_results : List VerificationResult
  summary : String
  overall_status : String
deriving DecidableEq, Repr

/-- Model of `DeviationReport.__init__` (models.py lines 104-107): the `pass_rate`
field defaults to `0.0` and is overwritten with
`observed_steps / total_steps * 100` whenever `total_steps > 0`. -/
def mkDeviationReport (test_name : String) (total_steps observed_steps deviated_steps uncertain_steps : Nat)
    (verification_results : List VerificationResult) (summary overall_status : String) :
    DeviationReport :=
  { test_name := test_name
    total_steps := total_steps
    observed_steps := observed_steps
    deviated_steps := deviated_steps
    uncertain_steps := uncertain_steps
    pass_rate := if 0 < total_steps then ((observed_steps : ℚ) / (total_steps : ℚ)) * 100 else 0
    verification_results := verification_results
    summary := summary
    overall_status := overall_status }

/-! ## Timeline keyword matching (`VideoTimeline.find_events_matching`,
models.py lines 186-256) -/

/-- The concatenated, lowercased search text of an event
(models.py lines 210-213). -/
def eventCombinedText (event : TimelineEvent) : String :=
  lowerStr event.description ++ " " ++ lowerStr (joinSpace event.text_visible)
    ++ " " ++ lowerStr (joinSpace event.ui_elements)

/-- Number of keywords occurring in the event's combined text
(models.py lines 216-222). -/
def eventMatchCount (keywords : List String) (event : TimelineEvent) : Nat :=
  (keywords.filter (fun kw => strIn (lowerStr kw) (eventCombinedText event))).length

/-- Event-type relevance boost (models.py lines 239-245). -/
def eventTypeBoost (event_type : String) : ℚ :=
  if event_type = "click" then 0.1
  else if event_type = "type" then 0.1
  else if event_type = "ui_change" then 0.05
  else if event_type = "assertion" then 0.15
  else 0

/-- The relevance score of an event against the keywords
(models.py lines 230-248): keyword ratio, +0.2 per keyword longer than 3
characters matched verbatim in the description, event-type boost, then
averaged with the event's own confidence. -/
def eventFinalScore (keywords : List String) (event : TimelineEvent) : ℚ :=
  let score0 : ℚ := (eventMatchCount keywords event : ℚ) / (max keywords.length 1 : ℚ)
  let boosted := (keywords.filter
    (fun kw => decide (3 < kw.length) && strIn (lowerStr kw) (lowerStr event.description))).length
  let score1 := score0 + (0.2 : ℚ) * (boosted : ℚ)
  let score2 := score1 + eventTypeBoost event.event_type
  (score2 + event.confidence) / 2

/-- Model of `VideoTimeline.find_events_matching` (models.py lines 186-256):
filter events below the temporal floor, apply the match-count threshold
(≥2 in strict mode, ≥1 in relaxed mode), score the survivors, and return
them sorted by descending score (stable, like Python's `list.sort` with
`reverse=True`). -/
def VideoTimeline.find_events_matching (tl : VideoTimeline) (keywords : List String)
    (min_timestamp : ℚ) (require_multiple_matches : Bool) : List TimelineEvent :=
  let scored := tl.events.filterMap (fun event =>
    if event.timestamp < min_timestamp then none
    else if require_multiple_matches && eventMatchCount keywords event < 2 then none
    else if !require_multiple_matches && eventMatchCount keywords event < 1 then none
    else some (event, eventFinalScore keywords event))
  (scored.insertionSort (fun a b => b.2 ≤ a.2)).map Prod.fst

/-- C6 — For every keyword list, minimum timestamp, and timeline, every
event returned by strict-mode matching (≥2 keyword matches required) is
also returned by relaxed-mode matching (≥1 match required): relaxed-mode
results are a superset of strict-mode results. -/
theorem relaxed_matching_superset_of_strict (tl : VideoTimeline) (keywords : List String)
    (min_timestamp : ℚ) (e : TimelineEvent)
    (h : e ∈ tl.find_events_matching keywords min_timestamp true) :
    e ∈ tl.find_events_matching keywords min_timestamp false := by
  unfold VideoTimeline.find_events_matching at h ⊢
  simp only [List.mem_map] at h ⊢
  obtain ⟨⟨e', s⟩, hmem, rfl⟩ := h
  refine ⟨⟨e', s⟩, ?_, rfl⟩
  rw [(List.perm_insertionSort _ _).mem_iff] at hmem ⊢
  simp only [List.mem_filterMap] at hmem ⊢
  obtain ⟨a, ha, hsome⟩ := hmem
  refine ⟨a, ha, ?_⟩
  by_cases hts : a.timestamp < min_timestamp
  · rw [if_pos hts] at hsome
    exact Option.noConfusion hsome
  · rw [if_neg hts] at hsome
    rw [if_neg hts]
    by_cases hc2 : eventMatchCount keywords a < 2
    · rw [if_pos (by simpa using hc2)] at hsome
      exact Option.noConfusion hsome
    · rw [if_neg (by simpa using hc2)] at hsome
      rw [if_neg (by simp)] at hsome
      rw [if_neg (by simp)]
      rw [if_neg (by simp; omega)]
      exact hsome

unseal Rat.add Rat.mul Rat.inv Rat.sub Rat.ofScientific in
/-- Witness for C6 at a concrete input: an event matching two keywords is
returned in strict mode, and the theorem transports it to relaxed mode. -/
theorem relaxed_matching_superset_of_strict_witness :
    let ev : TimelineEvent :=
      { timestamp := 1, frame_number := 0, event_type := "click",
        description := "user clicks the submit button", confidence := 0.9 }
    let tl : VideoTimeline :=
      { total_duration := 10, total_frames_analyzed := 1, events := [ev],
        narrative := "n" }
    ev ∈ tl.find_events_matching ["submit", "button"] 0 false :=
  relaxed_matching_superset_of_strict _ _ _ _ (by decide)

/-! ## Triage predicate (`agents/verification_agent.py`) -/

/-- Model of `VerificationAgent.NEGATIVE_INDICATORS` (verification_agent.py lines 33-51). -/
def NEGATIVE_INDICATORS : List String :=
  ["not visible", "not available", "not present", "not found", "is missing",
   "does not appear", "does not exist", "cannot see", "cannot find", "no longer",
   "fails", "failed", "failure", "assertion failed", "not displayed",
   "unavailable", "absent"]

/-- Model of `VerificationAgent._contains_negative_observations`
(verification_agent.py lines 132-145). -/
def contains_negative_observations (text : String) : Bool :=
  if text = "" then false
  else NEGATIVE_INDICATORS.any (fun indicator => strIn indicator (lowerStr text))

/-- The assertion markers of `VerificationAgent._is_assertion_step`
(verification_agent.py lines 118-128). -/
def assertionMarkers : List String :=
  ["assertion:", "assert that", "validate that", "verify that", "confirm that",
   "ensure that", "should be", "must be", "expect"]

/-- Model of `VerificationAgent._is_assertion_step` (verification_agent.py lines 113-130). -/
def is_assertion_step (step : TestStep) : Bool :=
  assertionMarkers.any (fun marker =>
    strIn marker (lowerStr step.action) || strIn marker (lowerStr step.description))

/-- The interaction keywords of trigger 5 (verification_agent.py line 106). -/
def interactionKeywords : List String :=
  ["filter", "select", "apply", "click", "choose", "check", "toggle"]

/-- Model of `VerificationAgent.needs_llm_verification`
(verification_agent.py lines 59-111): the five sequential triage triggers,
modelled as the source's early-return chain. -/
def needs_llm_verification (step : TestStep) (evidence : StepEvidence) : Bool :=
  if is_assertion_step step then true
  else if contains_negative_observations evidence.description then true
  else if contains_negative_observations evidence.reasoning then true
  else if (0.5 : ℚ) ≤ evidence.confidence ∧ evidence.confidence < (0.9 : ℚ) then true
  else if evidence.found = false ∧ (0.3 : ℚ) < evidence.confidence then true
  else if interactionKeywords.any (fun kw => strIn kw (lowerStr step.action)) then true
  else false

/-- C1 — The triage predicate flags a step for semantic (LLM) adjudication
iff at least one of the five triggers holds: (a) an assertion marker in the
step's action or description, (b) a negative-observation phrase in the
evidence description or reasoning, (c) borderline confidence in [0.5, 0.9),
(d) evidence not found with confidence strictly above 0.3, or (e) an
interaction verb in the step's action; otherwise the step takes the
deterministic path. -/
theorem needs_llm_verification_iff_trigger (step : TestStep) (evidence : StepEvidence) :
    needs_llm_verification step evidence = true ↔
      (is_assertion_step step = true
        ∨ contains_negative_observations evidence.description = true
        ∨ contains_negative_observations evidence.reasoning = true
        ∨ ((0.5 : ℚ) ≤ evidence.confidence ∧ evidence.confidence < (0.9 : ℚ))
        ∨ (evidence.found = false ∧ (0.3 : ℚ) < evidence.confidence)
        ∨ interactionKeywords.any (fun kw => strIn kw (lowerStr step.action)) = true) := by
  unfold needs_llm_verification
  split_ifs with h1 h2 h3 h4 h5 h6 <;> simp_all

/-! ## Deterministic verdict mapping
(`OrchestratorAgent._create_result_from_evidence`, orchestrator.py
lines 578-612).  The orchestrator's OCR dictionary `Dict[int, List[str]]`
is modelled as a total lookup function already carrying the `.get(_, [])`
default. -/

/-- Model of `OrchestratorAgent._create_result_from_evidence` (orchestrator.py
lines 578-612).  Note Python's `if evidence.frame_number:` is falsy both
for `None` and for frame number `0`. -/
def create_result_from_evidence (step : TestStep) (evidence : StepEvidence)
    (ocr_data : Nat → List String) : VerificationResult :=
  let status : StepStatus :=
    if (0.85 : ℚ) ≤ evidence.confidence then .observed
    else if (0.5 : ℚ) ≤ evidence.confidence then .uncertain
    else .deviation
  let ocr_matches : List String :=
    match evidence.frame_number with
    | some n => if n = 0 then [] else ocr_data n
    | none => []
  { step := step
    status := status
    confidence := evidence.confidence
    video_timestamp := evidence.timestamp
    evidence := evidence.reasoning
    ocr_detected_text := ocr_matches
    vision_analysis := some evidence.description
    agent_decisions := []
    notes := some "Code-based verification (no LLM)" }

/-- Step 1 of the C2 scenario: a plain navigation step. -/
def scenarioStep (n : Nat) : TestStep :=
  { step_number := n, description := "Open home page", action := "Open home" }

/-- Evidence with the given confidence for the C2 scenario: found, no
negative phrases. -/
def scenarioEvidence (c : ℚ) : StepEvidence :=
  { found := true, confidence := c, timestamp := some 1, frame_number := some 1,
    description := "Home page displayed", reasoning := "Matched home page event" }

unseal Rat.add Rat.mul Rat.inv Rat.sub Rat.ofScientific in
/-- C2 — For any step whose evidence skipped the semantic path, the
deterministic verdict is Observed for confidence >= 0.85, Uncertain for
[0.5, 0.85), Deviation below 0.5, with the verdict confidence equal to the
evidence confidence; and in the 3-step scenario with confidences
[0.95, 0.6, 0.3] (no negative phrases, assertions or interaction verbs),
step 1 is deterministic Observed, step 2 is flagged for the semantic path,
and step 3 is deterministic Deviation. -/
theorem deterministic_status_mapping :
    (∀ (step : TestStep) (evidence : StepEvidence) (ocr_data : Nat → List String),
      needs_llm_verification step evidence = false →
        (create_result_from_evidence step evidence ocr_data).confidence = evidence.confidence
        ∧ (create_result_from_evidence step evidence ocr_data).status =
            (if (0.85 : ℚ) ≤ evidence.confidence then .observed
             else if (0.5 : ℚ) ≤ evidence.confidence then .uncertain
             else .deviation))
    ∧ needs_llm_verification (scenarioStep 1) (scenarioEvidence 0.95) = false
    ∧ (create_result_from_evidence (scenarioStep 1) (scenarioEvidence 0.95) (fun _ => [])).status = .observed
    ∧ needs_llm_verification (scenarioStep 2) (scenarioEvidence 0.6) = true
    ∧ needs_llm_verification (scenarioStep 3) (scenarioEvidence 0.3) = false
    ∧ (create_result_from_evidence (scenarioStep 3) (scenarioEvidence 0.3) (fun _ => [])).status = .deviation := by
  refine ⟨fun step evidence ocr_data _ => ⟨rfl, rfl⟩, ?_, ?_, ?_, ?_, ?_⟩ <;> decide

unseal Rat.add Rat.mul Rat.inv Rat.sub Rat.ofScientific in
/-- Witness for C2: the general mapping applied at the concrete scenario
step 1 (confidence 0.95), whose triage hypothesis is discharged by
evaluation. -/
theorem deterministic_status_mapping_witness :
    (create_result_from_evidence (scenarioStep 1) (scenarioEvidence 0.95) (fun _ => [])).confidence
        = (scenarioEvidence 0.95).confidence
      ∧ (create_result_from_evidence (scenarioStep 1) (scenarioEvidence 0.95) (fun _ => [])).status =
          (if (0.85 : ℚ) ≤ (scenarioEvidence 0.95).confidence then .observed
           else if (0.5 : ℚ) ≤ (scenarioEvidence 0.95).confidence then .uncertain
           else .deviation) :=
  deterministic_status_mapping.1 (scenarioStep 1) (scenarioEvidence 0.95) (fun _ => []) (by decide)

/-! ## Report generation (`OrchestratorAgent._generate_report`,
orchestrator.py lines 674-723) -/

/-- Model of `OrchestratorAgent._generate_report` (orchestrator.py lines 674-723):
count statuses, derive the overall status and summary, and build the
report through the `DeviationReport` constructor (metric aggregation
omitted — no verified property reads it). -/
def generate_report (test_name : String) (verification_results : List VerificationResult) :
    DeviationReport :=
  let observed := verification_results.countP (fun r => decide (r.status = .observed))
  let deviated := verification_results.countP (fun r => decide (r.status = .deviation))
  let uncertain := verification_results.countP (fun r => decide (r.status = .uncertain))
  let overall_status :=
    if deviated = 0 ∧ uncertain = 0 then "PASSED"
    else if 0 < deviated then "FAILED"
    else "UNCERTAIN"
  let summary :=
    if deviated = 0 ∧ uncertain = 0 then
      "All test steps were successfully verified with high confidence."
    else if 0 < deviated then
      toString deviated ++ " step(s) showed deviations from planned execution."
    else
      toString uncertain ++ " step(s) could not be verified with high confidence."
  mkDeviationReport test_name verification_results.length observed deviated uncertain
    verification_results summary overall_status

/-- C3 — A generated report's overall_status is PASSED iff there are no
deviated and no uncertain steps, FAILED iff the deviated count is nonzero
(regardless of the uncertain count), and UNCERTAIN exactly otherwise (no
deviations but at least one uncertain step). -/
theorem overall_status_characterisation (test_name : String)
    (verification_results : List VerificationResult) :
    ((generate_report test_name verification_results).overall_status = "PASSED"
        ↔ (generate_report test_name verification_results).deviated_steps = 0
          ∧ (generate_report test_name verification_results).uncertain_steps = 0)
    ∧ ((generate_report test_name verification_results).overall_status = "FAILED"
        ↔ (generate_report test_name verification_results).deviated_steps ≠ 0)
    ∧ ((generate_report test_name verification_results).overall_status = "UNCERTAIN"
        ↔ (generate_report test_name verification_results).deviated_steps = 0
          ∧ (generate_report test_name verification_results).uncertain_steps ≠ 0) := by
  unfold generate_report mkDeviationReport
  set dev := verification_results.countP (fun r => decide (r.status = .deviation)) with hdev
  set unc := verification_results.countP (fun r => decide (r.status = .uncertain)) with hunc
  by_cases h1 : dev = 0 ∧ unc = 0
  · simp [h1]
  · by_cases h2 : 0 < dev
    · simp only [if_neg h1, if_pos h2]
      refine ⟨by simp; omega, by simp; omega, by simp; omega⟩
    · have hd0 : dev = 0 := by omega
      have hu : unc ≠ 0 := by
        intro hu0
        exact h1 ⟨hd0, hu0⟩
      simp only [if_neg h1, if_neg h2]
      refine ⟨by simp [hd0, hu], by simp [hd0], by simp [hd0, hu]⟩

/-- C9 — A generated report's pass_rate lies in [0, 100]; it equals
observed_steps / total_steps * 100 when total_steps > 0 and 0 when
total_steps = 0. -/
theorem pass_rate_in_range (test_name : String)
    (verification_results : List VerificationResult) :
    0 ≤ (generate_report test_name verification_results).pass_rate
    ∧ (generate_report test_name verification_results).pass_rate ≤ 100
    ∧ (generate_report test_name verification_results).pass_rate =
        (if 0 < (generate_report test_name verification_results).total_steps then
          ((generate_report test_name verification_results).observed_steps : ℚ)
            / ((generate_report test_name verification_results).total_steps : ℚ) * 100
         else 0) := by
  unfold generate_report mkDeviationReport
  simp only
  set obs := verification_results.countP (fun r => decide (r.status = .observed)) with hobs
  have hle : obs ≤ verification_results.length := List.countP_le_length _
  by_cases h : 0 < verification_results.length
  · have hpos : (0 : ℚ) < (verification_results.length : ℚ) := by exact_mod_cast h
    have hratio : (obs : ℚ) / (verification_results.length : ℚ) ≤ 1 := by
      rw [div_le_one hpos]
      exact_mod_cast hle
    have hnonneg : (0 : ℚ) ≤ (obs : ℚ) / (verification_results.length : ℚ) :=
      div_nonneg (by positivity) (le_of_lt hpos)
    refine ⟨?_, ?_, ?_⟩
    · rw [if_pos h]
      nlinarith
    · rw [if_pos h]
      nlinarith
    · simp [h]
  · refine ⟨?_, ?_, ?_⟩ <;> simp [if_neg h]

/-! ## Evidence gathering
(`ComprehensiveVisionAgent.verify_step_against_timeline` and
`_extract_keywords`, comprehensive_vision_agent.py lines 615-776) -/

/-- The double-quote character. -/
def dquote : Char := '\"'

/-- Model of Python `str.strip()` (ASCII whitespace). -/
def trimStr (s : String) : String :=
  ⟨((s.data.dropWhile Char.isWhitespace).reverse.dropWhile Char.isWhitespace).reverse⟩

/-- A regex `\w` word character (ASCII-faithful). -/
def isWordChar (c : Char) : Bool := c.isAlphanum || c = '_'

/-- Accumulator-passing scanner behind `wordRuns`. -/
def wordRunsAux : List Char → List Char → List (List Char)
  | acc, [] => if acc.isEmpty then [] else [acc.reverse]
  | acc, c :: rest =>
    if isWordChar c then wordRunsAux (c :: acc) rest
    else if acc.isEmpty then wordRunsAux [] rest
    else acc.reverse :: wordRunsAux [] rest

/-- Model of `re.findall(r'\b\w+\b', text)`: the maximal runs of word
characters. -/
def wordRuns (l : List Char) : List (List Char) := wordRunsAux [] l

/-- State-machine scanner behind `quotedRuns`: `none` while outside a
quoted span, `some acc` (reversed span so far) while inside. -/
def quotedRunsAux : Option (List Char) → List Char → List (List Char)
  | _, [] => []
  | none, c :: rest =>
    if c = dquote then quotedRunsAux (some []) rest else quotedRunsAux none rest
  | some acc, c :: rest =>
    if c = dquote then acc.reverse :: quotedRunsAux none rest
    else quotedRunsAux (some (c :: acc)) rest

/-- Model of `re.findall(r'"([^"]*)"', text)`: contents of successive
double-quote pairs, an unterminated final quote yielding nothing. -/
def quotedRuns (l : List Char) : List (List Char) := quotedRunsAux none l

/-- The vision agent's stop-word set
(comprehensive_vision_agent.py lines 741-745). -/
def visionStopWords : List String :=
  ["the", "a", "an", "and", "or", "but", "in", "on", "at", "to",
   "for", "of", "with", "is", "are", "was", "were", "be", "been",
   "that", "this", "it", "as", "by", "from", "should", "will"]

/-- Model of `ComprehensiveVisionAgent._extract_keywords`
(comprehensive_vision_agent.py lines 732-752): quoted substrings first
(trimmed, length > 2), then non-stop words of length > 2 not already
among the quoted terms, capped at 15. -/
def extract_keywords (description action : String) : List String :=
  let text := lowerStr (description ++ " " ++ action)
  let quoted := ((quotedRuns text.data).map (fun l => trimStr ⟨l⟩)).filter
    (fun q => 2 < q.data.length)
  let words := ((wordRuns text.data).map (fun l => (⟨l⟩ : String))).filter
    (fun w => decide (2 < w.data.length) && !(visionStopWords.contains w))
  (quoted ++ words.filter (fun w => !(quoted.contains w))).take 15

/-- Digit characters of a natural number, via explicit fuel so that it
evaluates by kernel reduction. -/
def natToStrAux : Nat → Nat → List Char
  | 0, _ => []
  | fuel + 1, n =>
    if n < 10 then [Char.ofNat (48 + n)]
    else natToStrAux fuel (n / 10) ++ [Char.ofNat (48 + n % 10)]

/-- Decimal rendering of a natural number (model of Python `str(n)`). -/
def natToStr (n : Nat) : String := ⟨natToStrAux (n + 1) n⟩

/-- Model of the f-string `{x:.1f}` used for timestamps (truncation to one
decimal digit; the code only formats non-negative timestamps, and no
verified property depends on the rounding mode of the final digit). -/
def fmtTenth (q : ℚ) : String :=
  let n : Int := ⌊q * 10⌋
  natToStr (n / 10).toNat ++ "." ++ natToStr (n % 10).toNat

/-- Model of Python `s[:n]`. -/
def strTake (s : String) (n : Nat) : String := ⟨s.data.take n⟩

/-- Model of `ComprehensiveVisionAgent._build_detailed_evidence`
(comprehensive_vision_agent.py lines 754-776). -/
def build_detailed_evidence (events : List TimelineEvent) (keywords : List String) : String :=
  if events.isEmpty then "No events found"
  else
    String.intercalate " | " ((events.take 3).enum.map (fun p =>
      let matched_kw := keywords.filter (fun kw => strIn (lowerStr kw) (lowerStr p.2.description))
      "[" ++ natToStr (p.1 + 1) ++ "] " ++ fmtTenth p.2.timestamp ++ "s: "
        ++ strTake p.2.description 100 ++ "... (matched: "
        ++ String.intercalate ", " (matched_kw.take 3) ++ ")"))

/-- The temporal floor of comprehensive_vision_agent.py line 646:
`max(0.0, (previous_step_timestamp or 0.0) + 0.5)` (`None` and the falsy
timestamp `0.0` both default to `0.0`). -/
def stepFloor (previous_step_timestamp : Option ℚ) : ℚ :=
  max 0 (previous_step_timestamp.getD 0 + 0.5)

/-- Model of `ComprehensiveVisionAgent.verify_step_against_timeline`
(comprehensive_vision_agent.py lines 615-730): extract keywords, match
strictly then relaxed above the temporal floor, and either report
not-found evidence or score the best match. -/
def verify_step_against_timeline (step : TestStep) (timeline : VideoTimeline)
    (previous_step_timestamp : Option ℚ) : StepEvidence :=
  let keywords := extract_keywords step.description step.action
  let min_timestamp := stepFloor previous_step_timestamp
  let strictMatches := timeline.find_events_matching keywords min_timestamp true
  let matching_events :=
    if strictMatches.isEmpty then timeline.find_events_matching keywords min_timestamp false
    else strictMatches
  match matching_events with
  | [] =>
    { found := false
      confidence := 0
      matching_events := []
      description := "No matching events found in timeline"
      reasoning := "Searched for keywords: " ++ String.intercalate ", " (keywords.take 5)
        ++ " after timestamp " ++ fmtTenth min_timestamp ++ "s - no matches" }
  | best :: _ =>
    let combined := eventCombinedText best
    let matched_keywords := (keywords.filter (fun kw => strIn (lowerStr kw) combined)).length
    let keyword_ratio : ℚ := (matched_keywords : ℚ) / (max keywords.length 1 : ℚ)
    let base1 :=
      if (0.7 : ℚ) ≤ keyword_ratio then min 1 (best.confidence + 0.15)
      else if (0.5 : ℚ) ≤ keyword_ratio then min 1 (best.confidence + 0.10)
      else if (0.3 : ℚ) ≤ keyword_ratio then min 1 (best.confidence + 0.05)
      else best.confidence
    let base2 :=
      match previous_step_timestamp with
      | some p => if p ≠ 0 ∧ p ≤ best.timestamp then min 1 (base1 + 0.05) else base1
      | none => base1
    let base3 :=
      if matching_events.length = 1 ∧ keyword_ratio < (0.4 : ℚ) then max 0.5 (base2 - 0.2)
      else base2
    { found := true
      confidence := base3
      timestamp := some best.timestamp
      frame_number := some best.frame_number
      matching_events := matching_events
      description := best.description
      reasoning := "Found " ++ natToStr matching_events.length
        ++ " matching events. Best match at " ++ fmtTenth best.timestamp
        ++ "s with " ++ natToStr matched_keywords ++ "/" ++ natToStr keywords.length
        ++ " keyword matches. Evidence: "
        ++ build_detailed_evidence (matching_events.take 3) keywords }

/-- C7 — Whenever neither strict-mode nor relaxed-mode matching returns
any event (in particular for a timeline with zero events), the
evidence-gathering query returns found = false with confidence 0 and a
reasoning string naming the searched keywords and the timestamp floor.
It is a total Lean function, so it never raises. -/
theorem no_match_evidence_shape (step : TestStep) (timeline : VideoTimeline)
    (previous_step_timestamp : Option ℚ)
    (hstrict : timeline.find_events_matching (extract_keywords step.description step.action)
      (stepFloor previous_step_timestamp) true = [])
    (hrelaxed : timeline.find_events_matching (extract_keywords step.description step.action)
      (stepFloor previous_step_timestamp) false = []) :
    verify_step_against_timeline step timeline previous_step_timestamp =
      { found := false
        confidence := 0
        matching_events := []
        description := "No matching events found in timeline"
        reasoning := "Searched for keywords: "
          ++ String.intercalate ", " ((extract_keywords step.description step.action).take 5)
          ++ " after timestamp " ++ fmtTenth (stepFloor previous_step_timestamp)
          ++ "s - no matches" } := by
  unfold verify_step_against_timeline
  simp only [hstrict, hrelaxed, List.isEmpty_nil, if_true]

/-- Witness for C7: a timeline with zero events, any step — the evidence
is found = false with confidence 0 and no exception is raised. -/
theorem no_match_evidence_shape_witness :
    verify_step_against_timeline
        { step_number := 1, description := "Open home page", action := "Open home" }
        { total_duration := 0, total_frames_analyzed := 0, events := [], narrative := "empty" }
        none =
      { found := false
        confidence := 0
        matching_events := []
        description := "No matching events found in timeline"
        reasoning := "Searched for keywords: "
          ++ String.intercalate ", " ((extract_keywords "Open home page" "Open home").take 5)
          ++ " after timestamp " ++ fmtTenth (stepFloor none)
          ++ "s - no matches" } :=
  no_match_evidence_shape _ _ _ (by decide) (by decide)

/-! ## Orchestrated evidence gathering
(`OrchestratorAgent._smart_verify_steps`, step 1, orchestrator.py
lines 461-481): evidence for each step in plan order, threading the
timestamp of the most recent found evidence. -/

/-- One record per planned step: the step, the evidence gathered for it,
and the temporal floor (`min_timestamp`) that was used while matching
it. -/
structure GatherItem where
  step : TestStep
  evidence : StepEvidence
  floor : ℚ
deriving DecidableEq, Repr

/-- The `previous_timestamp` update of orchestrator.py lines 478-479: a
step advances the threaded timestamp only when its evidence was found and
carries a timestamp. -/
def advanceFloorTs (acc : Option ℚ) (it : GatherItem) : Option ℚ :=
  if it.evidence.found && it.evidence.timestamp.isSome then it.evidence.timestamp else acc

/-- The evidence-gathering loop of `_smart_verify_steps`
(orchestrator.py lines 461-481). -/
def gather_initial_evidence (timeline : VideoTimeline) :
    Option ℚ → List TestStep → List GatherItem
  | _, [] => []
  | previous_timestamp, step :: rest =>
    let evidence := verify_step_against_timeline step timeline previous_timestamp
    let next :=
      if evidence.found && evidence.timestamp.isSome then evidence.timestamp
      else previous_timestamp
    { step := step, evidence := evidence, floor := stepFloor previous_timestamp }
      :: gather_initial_evidence timeline next rest

/-- The gathering loop produces exactly one evidence record per step. -/
theorem gather_initial_evidence_length (timeline : VideoTimeline)
    (previous_timestamp : Option ℚ) (steps : List TestStep) :
    (gather_initial_evidence timeline previous_timestamp steps).length = steps.length := by
  induction steps generalizing previous_timestamp with
  | nil => rfl
  | cons s rest ih => simp [gather_initial_evidence, ih]

/-- The timestamp of the most recent item whose evidence was found (and
carried a timestamp), if any. -/
def lastFoundTimestamp : List GatherItem → Option ℚ
  | [] => none
  | it :: rest =>
    match lastFoundTimestamp rest with
    | some t => some t
    | none =>
      if it.evidence.found && it.evidence.timestamp.isSome then it.evidence.timestamp
      else none

/-- Folding `advanceFloorTs` is the same as taking the most recent found
timestamp, defaulting to the accumulator. -/
theorem foldl_advanceFloorTs (items : List GatherItem) (acc : Option ℚ) :
    items.foldl advanceFloorTs acc =
      match lastFoundTimestamp items with
      | some t => some t
      | none => acc := by
  induction items generalizing acc with
  | nil => rfl
  | cons it rest ih =>
    show (rest.foldl advanceFloorTs (advanceFloorTs acc it)) = _
    rw [ih]
    cases h : lastFoundTimestamp rest with
    | some t => simp [lastFoundTimestamp, h]
    | none =>
      by_cases hfound : it.evidence.found = true
      · by_cases hsome : it.evidence.timestamp.isSome = true
        · obtain ⟨t', ht⟩ := Option.isSome_iff_exists.mp hsome
          simp [lastFoundTimestamp, h, advanceFloorTs, hfound, hsome, ht]
        · simp [lastFoundTimestamp, h, advanceFloorTs, hfound, hsome]
      · simp [lastFoundTimestamp, h, advanceFloorTs, hfound]

/-- Generalised floor invariant: in the gathering loop started with
accumulator `previous_timestamp`, the floor recorded for the `n`-th item
is `stepFloor` of the most recent earlier found timestamp (defaulting to
the accumulator). -/
theorem gather_floor_aux (timeline : VideoTimeline) (steps : List TestStep) :
    ∀ (previous_timestamp : Option ℚ) (n : Nat)
      (h : n < (gather_initial_evidence timeline previous_timestamp steps).length),
      ((gather_initial_evidence timeline previous_timestamp steps).get ⟨n, h⟩).floor =
        stepFloor (((gather_initial_evidence timeline previous_timestamp steps).take n).foldl
          advanceFloorTs previous_timestamp) := by
  induction steps with
  | nil =>
    intro prev n h
    simp [gather_initial_evidence] at h
  | cons s rest ih =>
    intro prev n h
    cases n with
    | zero => rfl
    | succ m =>
      have hm : m < (gather_initial_evidence timeline
          (if (verify_step_against_timeline s timeline prev).found &&
              (verify_step_against_timeline s timeline prev).timestamp.isSome
           then (verify_step_against_timeline s timeline prev).timestamp
           else prev) rest).length := by
        have := h
        simp only [gather_initial_evidence, List.length_cons] at this
        omega
      have hrec := ih _ m hm
      simpa [gather_initial_evidence, List.get, List.take, List.foldl, advanceFloorTs]
        using hrec

/-- C5 — In the orchestrated gathering loop, the temporal floor used when
matching step n equals max(0, t + 0.5) where t is the best-match timestamp
of the most recent earlier step whose evidence was found (0 when no
earlier step found evidence, matching the source's `or 0.0` default);
steps whose evidence was not found do not advance the floor. -/
theorem temporal_floor_rule (timeline : VideoTimeline) (steps : List TestStep) (n : Nat)
    (h : n < (gather_initial_evidence timeline none steps).length) :
    ((gather_initial_evidence timeline none steps).get ⟨n, h⟩).floor =
      max 0 ((lastFoundTimestamp ((gather_initial_evidence timeline none steps).take n)).getD 0
        + 0.5) := by
  have := gather_floor_aux timeline steps none n h
  rw [this, foldl_advanceFloorTs]
  cases hl : lastFoundTimestamp ((gather_initial_evidence timeline none steps).take n) with
  | some t => simp [stepFloor]
  | none => simp [stepFloor]

/-- Witness for C5: the floor recorded for the second of two concrete
steps, with the bound hypothesis discharged at the concrete input. -/
theorem temporal_floor_rule_witness :
    ((gather_initial_evidence
        { total_duration := 10, total_frames_analyzed := 1, events := [], narrative := "n" }
        none
        [{ step_number := 1, description := "Open home page", action := "Open home" },
         { step_number := 2, description := "Open settings panel", action := "Open settings" }]).get
      ⟨1, by rw [gather_initial_evidence_length]; decide⟩).floor =
      max 0 ((lastFoundTimestamp ((gather_initial_evidence
        { total_duration := 10, total_frames_analyzed := 1, events := [], narrative := "n" }
        none
        [{ step_number := 1, description := "Open home page", action := "Open home" },
         { step_number := 2, description := "Open settings panel", action := "Open settings" }]).take 1)).getD 0
        + 0.5) :=
  temporal_floor_rule _ _ 1 _

/-! ## Parsed JSON values and LLM-response decoding
(`agents/verification_agent.py` lines 407-594).

A `JValue` is the result of Python's `json.loads` (an external
standard-library call, abstracted away): the repository code under
verification starts from the parsed value.  `Except Unit` models a raised
Python exception. -/

/-- A parsed JSON value. -/
inductive JValue where
  | null
  | bool (b : Bool)
  | num (q : ℚ)
  | str (s : String)
  | arr (elems : List JValue)
  | obj (fields : List (String × JValue))

/-- Dictionary lookup; JSON object duplicates resolve to the last
occurrence, as in Python's `json.loads`. -/
def lookupField (fields : List (String × JValue)) (key : String) : Option JValue :=
  (fields.filterMap (fun p => if p.1 = key then some p.2 else none)).getLast?

/-- Model of Python `data.get(key, default)`: raises (`.error`) when
`data` is not a dict (`AttributeError` in the source's
`try`/`except`-wrapped parsing loops). -/
def jGet (v : JValue) (key : String) (dflt : JValue) : Except Unit JValue :=
  match v with
  | .obj fields => .ok ((lookupField fields key).getD dflt)
  | _ => .error ()

/-- Python truthiness of a parsed JSON value. -/
def jTruthy : JValue → Bool
  | .null => false
  | .bool b => b
  | .num q => decide (q ≠ 0)
  | .str s => decide (s ≠ "")
  | .arr l => !l.isEmpty
  | .obj l => !l.isEmpty

/-- Rendering used when a non-string `contradiction_details` value is
interpolated into the f-string (Python `str()`; the numeric rendering is
schematic — no verified property reads it). -/
def jToStr : JValue → String
  | .null => "None"
  | .bool true => "True"
  | .bool false => "False"
  | .num q => fmtTenth q
  | .str s => s
  | .arr _ => "<list>"
  | .obj _ => "<dict>"

/-- The upper-cased status string `status.value.upper()` used for the
decision record. -/
def StepStatus.upper : StepStatus → String
  | .observed => "OBSERVED"
  | .deviation => "DEVIATION"
  | .uncertain => "UNCERTAIN"

/-- The fields extracted from one LLM verification entry
(verification_agent.py lines 485-497). -/
structure VerificationEntry where
  status : StepStatus
  confidence : ℚ
  reasoning : String
  contradiction_detected : Bool
  evidence_str : String
deriving DecidableEq, Repr

/-- Field extraction of one verification entry (verification_agent.py
lines 485-497, identical to the single-step variant at lines 419-433):
status defaulting to "uncertain" and falling back to Uncertain when not
one of the three values; confidence defaulting to 0.5 and clamped to
[0, 1]; a contradiction banner prefixed onto the evidence text.  A
non-dict entry, a non-string status or reasoning, or a non-numeric
confidence raises (`.error`), mirroring `AttributeError`/`ValueError`/
pydantic validation inside the source's `try` block.  (Python's `float`
also accepts numeric *strings*; that corner is modelled as a failure and
no verified property quantifies over it.) -/
def decodeEntry (v : JValue) : Except Unit VerificationEntry := do
  let statusVal ← jGet v "status" (.str "uncertain")
  let status_str ← match statusVal with
    | .str s => Except.ok (lowerStr s)
    | _ => Except.error ()
  let status :=
    if status_str = "observed" then StepStatus.observed
    else if status_str = "deviation" then StepStatus.deviation
    else StepStatus.uncertain
  let confVal ← jGet v "confidence" (.num 0.5)
  let conf0 : ℚ ← match confVal with
    | .num q => Except.ok q
    | .bool b => Except.ok (if b then 1 else 0)
    | _ => Except.error ()
  let confidence := max 0 (min 1 conf0)
  let reasoningVal ← jGet v "reasoning" (.str "")
  let reasoning ← match reasoningVal with
    | .str s => Except.ok s
    | _ => Except.error ()
  let contradictionVal ← jGet v "contradiction_detected" (.bool false)
  let detailsVal ← jGet v "contradiction_details" (.str "")
  let evidence_str :=
    if jTruthy contradictionVal && jTruthy detailsVal then
      "CONTRADICTION DETECTED: " ++ jToStr detailsVal ++ "\n\n" ++ reasoning
    else reasoning
  Except.ok
    { status := status
      confidence := confidence
      reasoning := reasoning
      contradiction_detected := jTruthy contradictionVal
      evidence_str := evidence_str }

/-- Totalisation of `decodeEntry` with a default, used only to state the
all-entries-parse branch of batch parsing. -/
def decodeEntryD (v : JValue) : VerificationEntry :=
  (decodeEntry v).toOption.getD
    { status := .uncertain, confidence := 0.5, reasoning := "",
      contradiction_detected := false, evidence_str := "" }

/-- Model of `VerificationAgent._create_fallback_result`
(verification_agent.py lines 569-594). -/
def create_fallback_result (step : TestStep) (evidence : StepEvidence)
    (error_message : String) : VerificationResult :=
  { step := step
    status := .uncertain
    confidence := 0.5
    video_timestamp := evidence.timestamp
    evidence := "LLM verification failed: " ++ error_message
      ++ ". Using conservative uncertain status."
    ocr_detected_text := []
    vision_analysis := some evidence.description
    agent_decisions := [{ agent_name := "VerificationAgent"
                          decision := "UNCERTAIN"
                          reasoning := "Fallback due to: " ++ error_message
                          confidence := 0.5 }]
    notes := some "Fallback result due to LLM error" }

/-- The verification result built from one parsed batch entry
(verification_agent.py lines 499-521). -/
def mkBatchEntryResult (step : TestStep) (evidence : StepEvidence)
    (d : VerificationEntry) : VerificationResult :=
  { step := step
    status := d.status
    confidence := d.confidence
    video_timestamp := evidence.timestamp
    evidence := d.evidence_str
    ocr_detected_text := []
    vision_analysis := some evidence.description
    agent_decisions := [{ agent_name := "VerificationAgent"
                          decision := d.status.upper
                          reasoning := d.reasoning
                          confidence := d.confidence }]
    notes := some "Batch LLM-verified" }

/-- The index-matching loop of `_parse_batch_verification_response`
(verification_agent.py lines 478-526): pairs beyond the array length get
a per-pair "missing" fallback; a raising entry aborts the whole loop
(the exception propagates to the outer handler). -/
def batch_results_loop :
    List (TestStep × StepEvidence) → List JValue → Except Unit (List VerificationResult)
  | [], _ => .ok []
  | (step, evidence) :: restPairs, [] =>
    .ok (((step, evidence) :: restPairs).map
      (fun p => create_fallback_result p.1 p.2 "Missing in batch response"))
  | (step, evidence) :: restPairs, entry :: restEntries =>
    match decodeEntry entry with
    | .error e => .error e
    | .ok d =>
      match batch_results_loop restPairs restEntries with
      | .error e => .error e
      | .ok results => .ok (mkBatchEntryResult step evidence d :: results)

/-- Model of `VerificationAgent._parse_batch_verification_response`
(verification_agent.py lines 464-533).  `parsed` is the outcome of
cleaning the raw response and passing it to `json.loads` (`none` for a
parse exception).  A non-array value raises `ValueError`; any exception
— including one raised while processing an individual entry — lands in
the outer `except`, which replaces the *entire* result list with
fallbacks.  (The Python messages embed `str(e)`; the model uses a fixed
placeholder, which no verified property reads.) -/
def parse_batch_verification_response (parsed : Option JValue)
    (steps_to_verify : List (TestStep × StepEvidence)) : List VerificationResult :=
  match parsed with
  | some (.arr entries) =>
    match batch_results_loop steps_to_verify entries with
    | .ok results => results
    | .error _ => steps_to_verify.map
        (fun p => create_fallback_result p.1 p.2 "Batch parse error")
  | _ => steps_to_verify.map (fun p => create_fallback_result p.1 p.2 "Batch parse error")

/-- Model of `VerificationAgent._parse_verification_response` combined with the
`try`/`except` of `verify_step_with_timeline_evidence`
(verification_agent.py lines 147-197 and 407-462): `parsed` is the
cleaned-and-`json.loads`-ed LLM response (`none` when the call or the
parse raised); any decoding failure yields the conservative fallback. -/
def parse_verification_response (parsed : Option JValue) (step : TestStep)
    (evidence : StepEvidence) : VerificationResult :=
  match parsed with
  | some v =>
    match decodeEntry v with
    | .ok d =>
      { step := step
        status := d.status
        confidence := d.confidence
        video_timestamp := evidence.timestamp
        evidence := d.evidence_str
        ocr_detected_text := []
        vision_analysis := some evidence.description
        agent_decisions := [{ agent_name := "VerificationAgent"
                              decision := d.status.upper
                              reasoning := d.reasoning
                              confidence := d.confidence }]
        notes := some ("LLM-verified. Contradiction: "
          ++ (if d.contradiction_detected then "Yes" else "No")) }
    | .error _ => create_fallback_result step evidence "Parse error"
  | none => create_fallback_result step evidence "LLM call failed"

/-- Every `ok` outcome of the batch loop carries one result per pair, with
the step fields taken from the pairs in order. -/
theorem batch_results_loop_steps (pairs : List (TestStep × StepEvidence)) (es : List JValue)
    (rs : List VerificationResult) (h : batch_results_loop pairs es = .ok rs) :
    rs.map (fun r => r.step) = pairs.map Prod.fst := by
  induction pairs generalizing es rs with
  | nil =>
    cases es <;>
      (unfold batch_results_loop at h
       injection h with h'
       subst h'
       rfl)
  | cons p rest ih =>
    obtain ⟨s, ev⟩ := p
    cases es with
    | nil =>
      unfold batch_results_loop at h
      injection h with h'
      subst h'
      simp [create_fallback_result]
    | cons e es' =>
      unfold batch_results_loop at h
      cases hd : decodeEntry e with
      | error u =>
        rw [hd] at h
        cases h
      | ok d =>
        rw [hd] at h
        cases hl : batch_results_loop rest es' with
        | error u =>
          rw [hl] at h
          cases h
        | ok rs' =>
          rw [hl] at h
          injection h with h'
          subst h'
          simp [mkBatchEntryResult, ih es' rs' hl]

/-- When every entry within range of the pair list decodes, the batch loop
succeeds and pairs each input with its entry, padding missing entries with
the per-pair "missing" fallback. -/
theorem batch_results_loop_all_ok (pairs : List (TestStep × StepEvidence)) (es : List JValue)
    (h : ∀ v ∈ es.take pairs.length, (decodeEntry v).isOk = true) :
    batch_results_loop pairs es = .ok
      (List.zipWith (fun p v => mkBatchEntryResult p.1 p.2 (decodeEntryD v)) pairs es
        ++ (pairs.drop es.length).map
            (fun p => create_fallback_result p.1 p.2 "Missing in batch response")) := by
  induction pairs generalizing es with
  | nil => cases es <;> rfl
  | cons p rest ih =>
    obtain ⟨s, ev⟩ := p
    cases es with
    | nil => simp [batch_results_loop]
    | cons e es' =>
      have he : (decodeEntry e).isOk = true := h e (by simp)
      obtain ⟨d, hd⟩ : ∃ d, decodeEntry e = .ok d := by
        cases hde : decodeEntry e with
        | ok d => exact ⟨d, rfl⟩
        | error u =>
          rw [hde] at he
          simp [Except.isOk, Except.toBool] at he
      have ih' := ih es' (fun v hv => h v (by simp [hv]))
      unfold batch_results_loop
      rw [hd, ih']
      simp [decodeEntryD, hd, Except.toOption]

/-- C10 (amended) — Batch-response parsing always returns exactly one
result per input pair, in pair order (steps taken from the pairs).  When
the response parsed as a JSON array and every entry within range decodes
as a verification entry, the i-th result is built from the i-th entry for
i below the array length and is the Uncertain "missing" fallback beyond
it; when the response is not a parsed JSON array at all, every pair
receives the fallback.  (A decoding failure of any in-range entry also
sends every pair to the fallback — the source's exception handler
replaces the whole list.) -/
theorem batch_parse_shape (parsed : Option JValue)
    (pairs : List (TestStep × StepEvidence)) :
    ((parse_batch_verification_response parsed pairs).map (fun r => r.step)
        = pairs.map Prod.fst)
    ∧ (∀ es, parsed = some (JValue.arr es) →
        (∀ v ∈ es.take pairs.length, (decodeEntry v).isOk = true) →
        parse_batch_verification_response parsed pairs =
          List.zipWith (fun p v => mkBatchEntryResult p.1 p.2 (decodeEntryD v)) pairs es
            ++ (pairs.drop es.length).map
                (fun p => create_fallback_result p.1 p.2 "Missing in batch response"))
    ∧ ((∀ es, parsed ≠ some (JValue.arr es)) →
        parse_batch_verification_response parsed pairs =
          pairs.map (fun p => create_fallback_result p.1 p.2 "Batch parse error")) := by
  refine ⟨?_, ?_, ?_⟩
  · cases parsed with
    | none => simp [parse_batch_verification_response, create_fallback_result]
    | some v =>
      cases v with
      | arr es =>
        cases hl : batch_results_loop pairs es with
        | ok rs =>
          simpa [parse_batch_verification_response, hl]
            using batch_results_loop_steps pairs es rs hl
        | error u =>
          simp [parse_batch_verification_response, hl, create_fallback_result]
      | null => simp [parse_batch_verification_response, create_fallback_result]
      | bool b => simp [parse_batch_verification_response, create_fallback_result]
      | num q => simp [parse_batch_verification_response, create_fallback_result]
      | str s => simp [parse_batch_verification_response, create_fallback_result]
      | obj fields => simp [parse_batch_verification_response, create_fallback_result]
  · intro es hp hall
    subst hp
    simp [parse_batch_verification_response, batch_results_loop_all_ok pairs es hall]
  · intro hne
    cases parsed with
    | none => rfl
    | some v =>
      cases v with
      | arr es => exact absurd rfl (hne es)
      | null => rfl
      | bool b => rfl
      | num q => rfl
      | str s => rfl
      | obj fields => rfl

/-- A concrete planned step for the C10 inputs. -/
def batchCexStep (n : Nat) : TestStep :=
  { step_number := n, description := "Open home page", action := "Open home" }

/-- Concrete evidence for the C10 inputs. -/
def batchCexEvidence : StepEvidence :=
  { found := true, confidence := 0.9, timestamp := some 1, frame_number := some 1,
    description := "Home page displayed", reasoning := "Matched home page event" }

/-- A well-formed batch entry with status "observed". -/
def batchCexGoodEntry : JValue :=
  .obj [("status", .str "observed"), ("confidence", .num 0.9), ("reasoning", .str "ok")]

unseal Rat.add Rat.mul Rat.inv Rat.sub Rat.ofScientific in
/-- Witness for C10 (amended): one pair against a one-entry array whose
entry decodes — the hypotheses are discharged at the concrete input. -/
theorem batch_parse_shape_witness :
    parse_batch_verification_response (some (JValue.arr [batchCexGoodEntry]))
        [(batchCexStep 1, batchCexEvidence)] =
      List.zipWith (fun p v => mkBatchEntryResult p.1 p.2 (decodeEntryD v))
          [(batchCexStep 1, batchCexEvidence)] [batchCexGoodEntry]
        ++ ([(batchCexStep 1, batchCexEvidence)].drop [batchCexGoodEntry].length).map
            (fun p => create_fallback_result p.1 p.2 "Missing in batch response") :=
  (batch_parse_shape _ _).2.1 [batchCexGoodEntry] rfl (by decide)

unseal Rat.add Rat.mul Rat.inv Rat.sub Rat.ofScientific in
/-- C10 counterexample — the claim as stated is false: in the response
array `[well-formed entry, "oops"]` against two pairs, entry 0 exists and
decodes (to status Observed), yet result 0 is the Uncertain fallback —
the raising entry 1 makes the source replace the *entire* result list
with fallbacks, not only its own slot. -/
theorem batch_parse_counterexample :
    (decodeEntry batchCexGoodEntry).isOk = true
    ∧ (decodeEntryD batchCexGoodEntry).status = StepStatus.observed
    ∧ (decodeEntry (JValue.str "oops")).isOk = false
    ∧ (parse_batch_verification_response
          (some (JValue.arr [batchCexGoodEntry, JValue.str "oops"]))
          [(batchCexStep 1, batchCexEvidence), (batchCexStep 2, batchCexEvidence)]).map
        (fun r => r.status)
      = [StepStatus.uncertain, StepStatus.uncertain] := by
  refine ⟨by decide, by decide, by decide, by decide⟩

/-! ## Smart verification (`OrchestratorAgent._smart_verify_steps`,
orchestrator.py lines 431-540).

The two semantic collaborator outcomes are abstracted as oracles:
`single_responses` gives the cleaned-and-parsed LLM response of the
per-step path (`none` for a raised exception), `batch_response` that of
the batched path.  The theorems below hold for every oracle. -/

/-- One result per pair regardless of the response (first component of
the batch-parse contract, reused by the pipeline-level theorems). -/
theorem parse_batch_steps (parsed : Option JValue)
    (pairs : List (TestStep × StepEvidence)) :
    (parse_batch_verification_response parsed pairs).map (fun r => r.step)
      = pairs.map Prod.fst := by
  cases parsed with
  | none => simp [parse_batch_verification_response, create_fallback_result]
  | some v =>
    cases v with
    | arr es =>
      cases hl : batch_results_loop pairs es with
      | ok rs =>
        simpa [parse_batch_verification_response, hl]
          using batch_results_loop_steps pairs es rs hl
      | error u =>
        simp [parse_batch_verification_response, hl, create_fallback_result]
    | null => simp [parse_batch_verification_response, create_fallback_result]
    | bool b => simp [parse_batch_verification_response, create_fallback_result]
    | num q => simp [parse_batch_verification_response, create_fallback_result]
    | str s => simp [parse_batch_verification_response, create_fallback_result]
    | obj fields => simp [parse_batch_verification_response, create_fallback_result]

/-- The single-step semantic path always returns a result for the given
step, whatever the response. -/
theorem parse_response_step (parsed : Option JValue) (step : TestStep)
    (evidence : StepEvidence) :
    (parse_verification_response parsed step evidence).step = step := by
  cases parsed with
  | none => rfl
  | some v =>
    cases hd : decodeEntry v with
    | ok d => simp [parse_verification_response, hd]
    | error u => simp [parse_verification_response, hd, create_fallback_result]

/-- Triage split, flagged side (orchestrator.py lines 483-495). -/
def triage_needs_llm (pairs : List (TestStep × StepEvidence)) :
    List (TestStep × StepEvidence) :=
  pairs.filter (fun p => needs_llm_verification p.1 p.2)

/-- Triage split, deterministic side (orchestrator.py lines 483-495). -/
def triage_code_based (pairs : List (TestStep × StepEvidence)) :
    List (TestStep × StepEvidence) :=
  pairs.filter (fun p => !needs_llm_verification p.1 p.2)

/-- Step 4 of `_smart_verify_steps` (orchestrator.py lines 503-521):
below 5 flagged steps each gets its own adjudication
(`_verify_steps_async`, lines 542-576, one result per flagged pair in
order); from 5 on, one batched call. -/
def llm_phase (single_responses : TestStep → StepEvidence → Option JValue)
    (batch_response : Option JValue)
    (needs_llm : List (TestStep × StepEvidence)) : List VerificationResult :=
  if needs_llm.isEmpty then []
  else if needs_llm.length < 5 then
    needs_llm.map (fun p => parse_verification_response (single_responses p.1 p.2) p.1 p.2)
  else parse_batch_verification_response batch_response needs_llm

/-- The ordering used for the final sort (orchestrator.py line 525). -/
def resultLe (a b : VerificationResult) : Prop :=
  a.step.step_number ≤ b.step.step_number

instance : DecidableRel resultLe :=
  fun a b => inferInstanceAs (Decidable (a.step.step_number ≤ b.step.step_number))

instance : IsTotal VerificationResult resultLe :=
  ⟨fun a b => Nat.le_total a.step.step_number b.step.step_number⟩

instance : IsTrans VerificationResult resultLe :=
  ⟨fun _ _ _ => Nat.le_trans⟩

/-- Model of `OrchestratorAgent._smart_verify_steps` (orchestrator.py
lines 431-540): gather evidence for all steps in plan order, triage,
create deterministic results for the unflagged pairs and semantic results
for the flagged ones, then merge and sort by step number (a stable sort,
like Python's `list.sort`). -/
def smart_verify_steps (timeline : VideoTimeline) (ocr_data : Nat → List String)
    (single_responses : TestStep → StepEvidence → Option JValue)
    (batch_response : Option JValue) (steps : List TestStep) : List VerificationResult :=
  let pairs := (gather_initial_evidence timeline none steps).map
    (fun it => (it.step, it.evidence))
  let code_results := (triage_code_based pairs).map
    (fun p => create_result_from_evidence p.1 p.2 ocr_data)
  let llm_results := llm_phase single_responses batch_response (triage_needs_llm pairs)
  List.insertionSort resultLe (code_results ++ llm_results)

/-- The gathering loop visits exactly the planned steps, in order. -/
theorem gather_initial_evidence_steps (timeline : VideoTimeline)
    (previous_timestamp : Option ℚ) (steps : List TestStep) :
    (gather_initial_evidence timeline previous_timestamp steps).map (fun it => it.step)
      = steps := by
  induction steps generalizing previous_timestamp with
  | nil => rfl
  | cons s rest ih => simp [gather_initial_evidence, ih]

/-- The semantic phase returns one result per flagged pair, in order. -/
theorem llm_phase_steps (single_responses : TestStep → StepEvidence → Option JValue)
    (batch_response : Option JValue) (needs_llm : List (TestStep × StepEvidence)) :
    (llm_phase single_responses batch_response needs_llm).map (fun r => r.step)
      = needs_llm.map Prod.fst := by
  unfold llm_phase
  by_cases h0 : needs_llm.isEmpty
  · simp [h0, List.isEmpty_iff.mp h0]
  · by_cases h5 : needs_llm.length < 5
    · simp [h0, h5, List.map_map, Function.comp, parse_response_step]
    · simp [h0, h5, parse_batch_steps]

/-- C4 — For every plan whose step numbers are exactly 1..n, and for
every semantic-collaborator behaviour (including batch responses with
fewer entries than flagged steps, modelled by the oracles), the final
result list of smart verification carries exactly one verdict per planned
step number, without duplicates or gaps, in ascending step-number
order. -/
theorem verdicts_sorted_one_per_step (timeline : VideoTimeline) (ocr_data : Nat → List String)
    (single_responses : TestStep → StepEvidence → Option JValue) (batch_response : Option JValue)
    (steps : List TestStep) (n : Nat)
    (h : steps.map (fun s => s.step_number) = List.range' 1 n) :
    (smart_verify_steps timeline ocr_data single_responses batch_response steps).map
      (fun r => r.step.step_number) = List.range' 1 n := by
  simp only [smart_verify_steps]
  set pairs := (gather_initial_evidence timeline none steps).map
    (fun it => (it.step, it.evidence)) with hpairs
  set L := (triage_code_based pairs).map (fun p => create_result_from_evidence p.1 p.2 ocr_data)
      ++ llm_phase single_responses batch_response (triage_needs_llm pairs) with hL
  have hfst : pairs.map Prod.fst = steps := by
    rw [hpairs, List.map_map]
    have := gather_initial_evidence_steps timeline none steps
    simpa [Function.comp] using this
  have hcode : ((triage_code_based pairs).map
      (fun p => create_result_from_evidence p.1 p.2 ocr_data)).map (fun r => r.step)
        = (triage_code_based pairs).map Prod.fst := by
    simp [List.map_map, Function.comp, create_result_from_evidence]
  have hperm : (L.map (fun r => r.step)).Perm steps := by
    rw [hL, List.map_append, hcode, llm_phase_steps]
    have hp : ((triage_code_based pairs) ++ (triage_needs_llm pairs)).Perm pairs := by
      unfold triage_code_based triage_needs_llm
      have hfp := List.filter_append_perm (fun p => !needs_llm_verification p.1 p.2) pairs
      simpa [Bool.not_not] using hfp
    rw [← List.map_append, ← hfst]
    exact hp.map Prod.fst
  have hsorted : List.Sorted (fun a b : ℕ => a ≤ b)
      ((List.insertionSort resultLe L).map (fun r => r.step.step_number)) :=
    List.pairwise_map.mpr (List.sorted_insertionSort resultLe L)
  have hsorted' : List.Sorted (fun a b : ℕ => a ≤ b) (List.range' 1 n) :=
    (List.pairwise_lt_range' 1 n).imp le_of_lt
  have hpermnum : ((List.insertionSort resultLe L).map (fun r => r.step.step_number)).Perm
      (List.range' 1 n) := by
    rw [← h]
    have h1 : (List.insertionSort resultLe L).Perm L := List.perm_insertionSort _ _
    have h3 : (L.map (fun r => r.step.step_number))
        = (L.map (fun r => r.step)).map (fun s => s.step_number) := by
      simp [List.map_map, Function.comp]
    exact (h1.map _).trans (by
      rw [h3]
      exact hperm.map (fun s => s.step_number))
  exact List.eq_of_perm_of_sorted hpermnum hsorted hsorted'

/-- Witness for C4: a two-step plan numbered 1, 2 against an empty
timeline, unhelpful oracles (every call fails), discharging the
numbering hypothesis at the concrete input. -/
theorem verdicts_sorted_one_per_step_witness :
    (smart_verify_steps
        { total_duration := 10, total_frames_analyzed := 1, events := [], narrative := "n" }
        (fun _ => []) (fun _ _ => none) none
        [{ step_number := 1, description := "Open home page", action := "Open home" },
         { step_number := 2, description := "Open settings panel", action := "Open settings" }]).map
      (fun r => r.step.step_number) = List.range' 1 2 :=
  verdicts_sorted_one_per_step _ _ _ _ _ 2 (by decide)

/-! ## Structured-response recovery (`utils/json_utils.py`).

`json.loads` itself is Python's standard library, not repository code: it
is abstracted as a total parameter `loads : String → Option JValue`
(`none` = `JSONDecodeError`).  Every repository-side transformation
(cleanup, regex repairs, truncation) is modelled concretely. -/

/-- The opening curly brace character. -/
def lbrace : Char := Char.ofNat 123

/-- The closing curly brace character. -/
def rbrace : Char := Char.ofNat 125

/-- The opening square bracket character. -/
def lbrack : Char := '['

/-- The closing square bracket character. -/
def rbrack : Char := ']'

/-- Index of the first occurrence of `needle` in `hay` starting the scan
at offset `i`. -/
def subIndexAux (needle : List Char) : Nat → List Char → Option Nat
  | i, [] => if needle.isEmpty then some i else none
  | i, c :: rest =>
    if listStarts needle (c :: rest) then some i else subIndexAux needle (i + 1) rest

/-- Model of Python `hay.find(needle)` (as an `Option`). -/
def subIndex (needle hay : List Char) : Option Nat := subIndexAux needle 0 hay

/-- The text after the first occurrence of `sep` (used for
`text.split(sep)[1]`; callers guard on the separator being present). -/
def afterFirstSub (sep l : List Char) : List Char :=
  match subIndex sep l with
  | some i => l.drop (i + sep.length)
  | none => l

/-- The text before the first occurrence of `sep` (`text.split(sep)[0]`). -/
def beforeFirstSub (sep l : List Char) : List Char :=
  match subIndex sep l with
  | some i => l.take i
  | none => l

/-- Model of Python `hay.rfind(c)` (as an `Option`). -/
def rfindChar (c : Char) (l : List Char) : Option Nat :=
  match subIndex [c] l.reverse with
  | some i => some (l.length - 1 - i)
  | none => none

/-- Model of `clean_json_response` (json_utils.py lines 8-38): strip, remove the
first fenced code block, then trim to the first opening brace/bracket and
the last matching closer.  (`text.split(sep)[1].split("\x60\x60\x60")[0]`
equals the segment after the first separator cut at the next fence, which
is what the substring operations below compute.) -/
def clean_json_response (response_text : String) : String :=
  if trimStr response_text = "" then ""
  else
    let text0 := (trimStr response_text).data
    let text :=
      if listHasSub "```json".data text0 then
        (trimStr ⟨beforeFirstSub "```".data (afterFirstSub "```json".data text0)⟩).data
      else if listHasSub "```".data text0 then
        (trimStr ⟨beforeFirstSub "```".data (afterFirstSub "```".data text0)⟩).data
      else text0
    let brace_start := subIndex [lbrace] text
    let bracket_start := subIndex [lbrack] text
    let sliceFrom : Nat → Char → String := fun start closer =>
      let endd := match rfindChar closer text with
        | some i => i + 1
        | none => 0
      if start < endd then ⟨(text.take endd).drop start⟩ else ⟨text⟩
    match brace_start, bracket_start with
    | some b, some k => if b < k then sliceFrom b rbrace else sliceFrom k rbrack
    | some b, none => sliceFrom b rbrace
    | none, some k => sliceFrom k rbrack
    | none, none => ⟨text⟩

/-- Python `\s` on the code's ASCII inputs. -/
def pyIsSpace (c : Char) : Bool := c.isWhitespace

/-- A step of dropped whitespace ending in a cons strictly shrinks the
list. -/
theorem dropWhile_cons_length {p : Char → Bool} {l tail : List Char} {d : Char}
    (h : l.dropWhile p = d :: tail) : tail.length < l.length := by
  have h1 : (l.dropWhile p).length ≤ l.length := (List.dropWhile_sublist p).length_le
  rw [h] at h1
  simp only [List.length_cons] at h1
  omega

/-- One pass of `re.sub`: scan left to right, at each position either
apply the (non-overlapping) match — emitting its replacement and
continuing after the consumed text — or move one character forward. -/
def scanRewrite (tryMatch : List Char → Option (List Char × List Char))
    (hm : ∀ l out tail, tryMatch l = some (out, tail) → tail.length < l.length) :
    List Char → List Char
  | [] => []
  | c :: rest =>
    match h : tryMatch (c :: rest) with
    | some (out, tail) => out ++ scanRewrite tryMatch hm tail
    | none => c :: scanRewrite tryMatch hm rest
termination_by l => l.length
decreasing_by
  · exact hm _ _ _ h
  · simp

/-- Matcher for `,\s*C → C` (trailing comma before a closer). -/
def matchCommaClose (close : Char) (l : List Char) : Option (List Char × List Char) :=
  match l with
  | c :: rest =>
    if c = ',' then
      match rest.dropWhile pyIsSpace with
      | d :: tail => if d = close then some ([close], tail) else none
      | [] => none
    else none
  | [] => none

theorem matchCommaClose_shrinks (close : Char) :
    ∀ l out tail, matchCommaClose close l = some (out, tail) → tail.length < l.length := by
  intro l out tail h
  match l with
  | [] => simp [matchCommaClose] at h
  | c :: rest =>
    simp only [matchCommaClose] at h
    by_cases hc : c = ','
    · rw [if_pos hc] at h
      cases hd : rest.dropWhile pyIsSpace with
      | nil => rw [hd] at h; cases h
      | cons d tail' =>
        rw [hd] at h
        have h' : (if d = close then some (([close] : List Char), tail') else none)
            = some (out, tail) := h
        by_cases hdc : d = close
        · rw [if_pos hdc] at h'
          injection h' with h1
          injection h1 with h1 h2
          subst h2
          have := dropWhile_cons_length hd
          simp only [List.length_cons]
          omega
        · rw [if_neg hdc] at h'; cases h'
    · rw [if_neg hc] at h; cases h

/-- Matcher for `A\s*B → A,B` (missing comma between closers/openers). -/
def matchAdjacent (a b : Char) (l : List Char) : Option (List Char × List Char) :=
  match l with
  | c :: rest =>
    if c = a then
      match rest.dropWhile pyIsSpace with
      | d :: tail => if d = b then some ([a, ',', b], tail) else none
      | [] => none
    else none
  | [] => none

theorem matchAdjacent_shrinks (a b : Char) :
    ∀ l out tail, matchAdjacent a b l = some (out, tail) → tail.length < l.length := by
  intro l out tail h
  match l with
  | [] => simp [matchAdjacent] at h
  | c :: rest =>
    simp only [matchAdjacent] at h
    by_cases hc : c = a
    · rw [if_pos hc] at h
      cases hd : rest.dropWhile pyIsSpace with
      | nil => rw [hd] at h; cases h
      | cons d tail' =>
        rw [hd] at h
        have h' : (if d = b then some (([a, ',', b] : List Char), tail') else none)
            = some (out, tail) := h
        by_cases hdc : d = b
        · rw [if_pos hdc] at h'
          injection h' with h1
          injection h1 with h1 h2
          subst h2
          have := dropWhile_cons_length hd
          simp only [List.length_cons]
          omega
        · rw [if_neg hdc] at h'; cases h'
    · rw [if_neg hc] at h; cases h

/-- Matcher for `"\s*\n\s*" → ",\n"` (missing comma after a string value
at a line break: the whitespace run must contain a newline and end at a
quote). -/
def matchQuoteNlQuote (l : List Char) : Option (List Char × List Char) :=
  match l with
  | c :: rest =>
    if c = dquote then
      match rest.dropWhile pyIsSpace with
      | d :: tail =>
        if d = dquote && (rest.takeWhile pyIsSpace).contains '\n' then
          some ([dquote, ',', '\n', dquote], tail)
        else none
      | [] => none
    else none
  | [] => none

theorem matchQuoteNlQuote_shrinks :
    ∀ l out tail, matchQuoteNlQuote l = some (out, tail) → tail.length < l.length := by
  intro l out tail h
  match l with
  | [] => simp [matchQuoteNlQuote] at h
  | c :: rest =>
    simp only [matchQuoteNlQuote] at h
    by_cases hc : c = dquote
    · rw [if_pos hc] at h
      cases hd : rest.dropWhile pyIsSpace with
      | nil => rw [hd] at h; cases h
      | cons d tail' =>
        rw [hd] at h
        have h' : (if (d = dquote && (rest.takeWhile pyIsSpace).contains '\n') = true then
            some (([dquote, ',', '\n', dquote] : List Char), tail') else none)
              = some (out, tail) := h
        by_cases hcond : (d = dquote && (rest.takeWhile pyIsSpace).contains '\n') = true
        · rw [if_pos hcond] at h'
          injection h' with h1
          injection h1 with h1 h2
          subst h2
          have := dropWhile_cons_length hd
          simp only [List.length_cons]
          omega
        · rw [if_neg hcond] at h'; cases h'
    · rw [if_neg hc] at h; cases h

/-- Matcher for `(\d)\s*\n\s*" → \1,\n"` (missing comma after a numeric
value at a line break). -/
def matchDigitNlQuote (l : List Char) : Option (List Char × List Char) :=
  match l with
  | c :: rest =>
    if c.isDigit then
      match rest.dropWhile pyIsSpace with
      | d :: tail =>
        if d = dquote && (rest.takeWhile pyIsSpace).contains '\n' then
          some ([c, ',', '\n', dquote], tail)
        else none
      | [] => none
    else none
  | [] => none

theorem matchDigitNlQuote_shrinks :
    ∀ l out tail, matchDigitNlQuote l = some (out, tail) → tail.length < l.length := by
  intro l out tail h
  match l with
  | [] => simp [matchDigitNlQuote] at h
  | c :: rest =>
    simp only [matchDigitNlQuote] at h
    by_cases hc : c.isDigit = true
    · rw [if_pos hc] at h
      cases hd : rest.dropWhile pyIsSpace with
      | nil => rw [hd] at h; cases h
      | cons d tail' =>
        rw [hd] at h
        have h' : (if (d = dquote && (rest.takeWhile pyIsSpace).contains '\n') = true then
            some (([c, ',', '\n', dquote] : List Char), tail') else none)
              = some (out, tail) := h
        by_cases hcond : (d = dquote && (rest.takeWhile pyIsSpace).contains '\n') = true
        · rw [if_pos hcond] at h'
          injection h' with h1
          injection h1 with h1 h2
          subst h2
          have := dropWhile_cons_length hd
          simp only [List.length_cons]
          omega
        · rw [if_neg hcond] at h'; cases h'
    · rw [if_neg hc] at h; cases h

/-- A successful `listStarts` needs at least as many characters as the
pattern offers. -/
theorem listStarts_length {n h : List Char} (hs : listStarts n h = true) :
    n.length ≤ h.length := by
  induction n generalizing h with
  | nil => simp
  | cons a as ih =>
    cases h with
    | nil => simp [listStarts] at hs
    | cons b bs =>
      simp only [listStarts, Bool.and_eq_true] at hs
      have := ih hs.2
      simp only [List.length_cons]
      omega

/-- The literal alternation `true|false|null` at the head of the text. -/
def matchWordAt (l : List Char) : Option (List Char × List Char) :=
  if listStarts "true".data l then some ("true".data, l.drop 4)
  else if listStarts "false".data l then some ("false".data, l.drop 5)
  else if listStarts "null".data l then some ("null".data, l.drop 4)
  else none

theorem matchWordAt_shrinks {l w after : List Char}
    (h : matchWordAt l = some (w, after)) : after.length < l.length := by
  unfold matchWordAt at h
  by_cases h1 : listStarts "true".data l = true
  · rw [if_pos h1] at h
    injection h with h'
    injection h' with ha hb
    subst hb
    have := listStarts_length h1
    simp only [List.length_drop]
    simp at this
    omega
  · rw [if_neg h1] at h
    by_cases h2 : listStarts "false".data l = true
    · rw [if_pos h2] at h
      injection h with h'
      injection h' with ha hb
      subst hb
      have := listStarts_length h2
      simp only [List.length_drop]
      simp at this
      omega
    · rw [if_neg h2] at h
      by_cases h3 : listStarts "null".data l = true
      · rw [if_pos h3] at h
        injection h with h'
        injection h' with ha hb
        subst hb
        have := listStarts_length h3
        simp only [List.length_drop]
        simp at this
        omega
      · rw [if_neg h3] at h
        cases h

/-- Matcher for `(true|false|null)\s*\n\s*" → \1,\n"`. -/
def matchWordNlQuote (l : List Char) : Option (List Char × List Char) :=
  match matchWordAt l with
  | some (w, after) =>
    match after.dropWhile pyIsSpace with
    | d :: tail =>
      if d = dquote && (after.takeWhile pyIsSpace).contains '\n' then
        some (w ++ [',', '\n', dquote], tail)
      else none
    | [] => none
  | none => none

theorem matchWordNlQuote_shrinks :
    ∀ l out tail, matchWordNlQuote l = some (out, tail) → tail.length < l.length := by
  intro l out tail h
  unfold matchWordNlQuote at h
  cases hw : matchWordAt l with
  | none => rw [hw] at h; cases h
  | some p =>
    obtain ⟨w, after⟩ := p
    rw [hw] at h
    have h0 : (match after.dropWhile pyIsSpace with
      | d :: tail =>
        if (d = dquote && (after.takeWhile pyIsSpace).contains '\n') = true then
          some ((w ++ [',', '\n', dquote] : List Char), tail)
        else none
      | [] => none) = some (out, tail) := h
    cases hd : after.dropWhile pyIsSpace with
    | nil => rw [hd] at h0; cases h0
    | cons d tail' =>
      rw [hd] at h0
      have h' : (if (d = dquote && (after.takeWhile pyIsSpace).contains '\n') = true then
          some ((w ++ [',', '\n', dquote] : List Char), tail') else none)
            = some (out, tail) := h0
      by_cases hcond : (d = dquote && (after.takeWhile pyIsSpace).contains '\n') = true
      · rw [if_pos hcond] at h'
        injection h' with h1
        injection h1 with h1 h2
        subst h2
        have hlt1 := dropWhile_cons_length hd
        have hlt2 := matchWordAt_shrinks hw
        omega
      · rw [if_neg hcond] at h'; cases h'

/-- Number of occurrences of a character (`text.count(c)`). -/
def countChar (c : Char) (l : List Char) : Nat := (l.filter (fun x => x = c)).length

/-- Model of `repair_json_syntax` (json_utils.py lines 40-69): the six `re.sub`
passes in source order, then — if braces or brackets are left unclosed —
append the missing closers, brackets first. -/
def repair_json (json_text : String) : String :=
  let r := json_text.data
  let r := scanRewrite (matchCommaClose rbrack) (matchCommaClose_shrinks rbrack) r
  let r := scanRewrite (matchCommaClose rbrace) (matchCommaClose_shrinks rbrace) r
  let r := scanRewrite (matchAdjacent rbrace lbrace) (matchAdjacent_shrinks rbrace lbrace) r
  let r := scanRewrite (matchAdjacent rbrack lbrack) (matchAdjacent_shrinks rbrack lbrack) r
  let r := scanRewrite matchQuoteNlQuote matchQuoteNlQuote_shrinks r
  let r := scanRewrite matchDigitNlQuote matchDigitNlQuote_shrinks r
  let r := scanRewrite matchWordNlQuote matchWordNlQuote_shrinks r
  let open_braces : Int := (countChar lbrace r : Int) - (countChar rbrace r : Int)
  let open_brackets : Int := (countChar lbrack r : Int) - (countChar rbrack r : Int)
  if 0 < open_braces ∨ 0 < open_brackets then
    ⟨r ++ List.replicate open_brackets.toNat rbrack ++ List.replicate open_braces.toNat rbrace⟩
  else ⟨r⟩

/-- Model of `truncate_to_valid_json` (json_utils.py lines 117-133): find the last
closer at index ≥ 1 (the Python loop runs `range(len-1, 0, -1)`), keep
the prefix up to it, and append missing closers — braces first in this
function.  (The `try` body cannot raise, so the loop returns at the first
closer found from the end.) -/
def truncate_to_valid_json (json_text : String) : Option String :=
  let l := json_text.data
  let closerIdx := ((l.enum.filter
    (fun p => decide (1 ≤ p.1) && (p.2 = rbrace || p.2 = rbrack))).getLast?).map Prod.fst
  match closerIdx with
  | none => none
  | some i =>
    let candidate := l.take (i + 1)
    let open_braces : Int := (countChar lbrace candidate : Int) - (countChar rbrace candidate : Int)
    let open_brackets : Int := (countChar lbrack candidate : Int) - (countChar rbrack candidate : Int)
    let candidate := candidate ++ List.replicate open_braces.toNat rbrace
    let candidate := candidate ++ List.replicate open_brackets.toNat rbrack
    some ⟨candidate⟩

/-- Model of `try_parse_json` (json_utils.py lines 135-168): empty input is
rejected up front; then the ordered strategies — direct parse, cleaned
parse, repaired parse, truncated parse — are attempted in turn, the
functio returning the first success or `none`. -/
def try_parse_json (loads : String → Option JValue) (json_text : String) : Option JValue :=
  if json_text = "" then none
  else
    match loads json_text with
    | some v => some v
    | none =>
      let cleaned := clean_json_response json_text
      match loads cleaned with
      | some v => some v
      | none =>
        match loads (repair_json cleaned) with
        | some v => some v
        | none =>
          match truncate_to_valid_json cleaned with
          | some truncated => loads truncated
          | none => none

/-- The outcomes of the four ordered recovery strategies on a given
input. -/
def recovery_strategy_results (loads : String → Option JValue) (json_text : String) :
    List (Option JValue) :=
  [loads json_text,
   loads (clean_json_response json_text),
   loads (repair_json (clean_json_response json_text)),
   (truncate_to_valid_json (clean_json_response json_text)).bind loads]

/-- C8 — For every input string (empty, non-JSON, truncated or otherwise
malformed) and every behaviour of the underlying `json.loads`, the
recovery function returns exactly the first success among the ordered
fallback strategies, and the explicit unrecoverable signal (`none`) when
all fail or the input is empty.  It is a total Lean function, so it never
raises. -/
theorem try_parse_json_first_success (loads : String → Option JValue) (json_text : String) :
    try_parse_json loads json_text =
      if json_text = "" then none
      else (recovery_strategy_results loads json_text).findSome? id := by
  unfold try_parse_json recovery_strategy_results
  by_cases h : json_text = ""
  · simp [h]
  · simp only [h, if_neg, if_false]
    cases h1 : loads json_text with
    | some v => simp [List.findSome?, h1]
    | none =>
      cases h2 : loads (clean_json_response json_text) with
      | some v => simp [List.findSome?, h1, h2]
      | none =>
        cases h3 : loads (repair_json (clean_json_response json_text)) with
        | some v => simp [List.findSome?, h1, h2, h3]
        | none =>
          cases h4 : truncate_to_valid_json (clean_json_response json_text) with
          | some t =>
            cases h5 : loads t <;> simp [List.findSome?, h1, h2, h3, h4, h5]
          | none => simp [List.findSome?, h1, h2, h3, h4]
